import Mathlib

/-!
# Verification of `ipo_alert_flow.py`

A shallow embedding, in Lean 4, of the logic of the IPO alert script:
Python runtime values are modelled by the inductive type `PyVal`
(numbers as `ℤ`/`ℚ`, so no floating-point rounding is modelled; none of
the properties below depends on rounding), records by association lists,
and each Python function of the script by a Lean function of the same
name.  Fallible Python code is modelled by `Option`-valued functions:
a caught exception corresponds to the `none` branch of the model, so
"never raises" is reflected by the model being a total function whose
error branches are explicit.
-/

set_option autoImplicit false

namespace IpoAlert

mutual

/-- Model of the Python runtime values the script manipulates: `None`,
booleans, ints, floats (modelled as `ℚ`), strings, lists and dicts
(dicts as association lists with string keys, first binding wins; the
list and dict payloads are the mutual types `PyValList` and
`PyValDict` so that recursion over values stays structural). -/
inductive PyVal where
  | none
  | bool (b : Bool)
  | int (n : ℤ)
  | float (q : ℚ)
  | str (s : String)
  | list (xs : PyValList)
  | dict (kvs : PyValDict)

/-- A Python list of values. -/
inductive PyValList where
  | nil
  | cons (hd : PyVal) (tl : PyValList)

/-- A Python dict with string keys: an association list. -/
inductive PyValDict where
  | nil
  | cons (key : String) (val : PyVal) (tl : PyValDict)

end

/-- A record (an entry of the `ipoCalendar` list): a Python dict. -/
abbrev Record := PyValDict

/-- Whether a Python list is empty. -/
def PyValList.isEmpty : PyValList → Bool
  | .nil => true
  | .cons _ _ => false

/-- Whether a Python dict is empty. -/
def PyValDict.isEmpty : PyValDict → Bool
  | .nil => true
  | .cons _ _ _ => false

/-- The entries of a Python list, as a Lean list. -/
def PyValList.toList : PyValList → List PyVal
  | .nil => []
  | .cons x tl => x :: tl.toList

/-- The keys of a Python dict, in order (`list(d.keys())`). -/
def PyValDict.keys : PyValDict → List String
  | .nil => []
  | .cons k _ tl => k :: tl.keys

/-- Build a `PyValList` from a Lean list literal. -/
def listOf : List PyVal → PyValList
  | [] => .nil
  | x :: tl => .cons x (listOf tl)

/-- Build a `Record` from a Lean association-list literal. -/
def recOf : List (String × PyVal) → Record
  | [] => .nil
  | (k, v) :: tl => .cons k v (recOf tl)

/-- Python truthiness: `bool(x)` for each of the modelled value shapes.
`None` and `False` are falsy, numbers are falsy exactly at zero, strings
and containers are falsy exactly when empty. -/
def truthy : PyVal → Bool
  | .none => false
  | .bool b => b
  | .int n => n ≠ 0
  | .float q => q ≠ 0
  | .str s => s ≠ ""
  | .list xs => ¬ xs.isEmpty
  | .dict kvs => ¬ kvs.isEmpty

/-- Python `a or b`: returns `a` when `a` is truthy, otherwise `b`. -/
def pyOr (a b : PyVal) : PyVal :=
  if truthy a then a else b

/-- Python `d.get(k)` on a dict: the first value bound to `k`, or `None`
when the key is absent. -/
def pyGet (it : Record) (k : String) : PyVal :=
  match it with
  | .nil => PyVal.none
  | .cons key val tl => if key = k then val else pyGet tl k

/-- Decimal digits of a natural number read as a number
(`digitsToNat ['4','2'] = 42`); helper for the model of `float(s)`. -/
def digitsToNat (ds : List Char) : ℕ :=
  ds.foldl (fun a c => 10 * a + (c.toNat - 48)) 0

/-- Rational multiplication, spelled through `mkRat` (the value is the
same as `a * b`; this spelling lets proofs that evaluate definitions
reduce, which `Rat.mul` being irreducible prevents). -/
def qmul (a b : ℚ) : ℚ :=
  mkRat (a.num * b.num) (a.den * b.den)

/-- Parse the mantissa part of a Python float literal: `digits`,
`digits.digits`, `digits.` or `.digits` (at least one digit in total),
returning its value (the integer and fractional digits over a power of
ten) and the unconsumed remainder. -/
def parseMantissa (cs : List Char) : Option (ℚ × List Char) :=
  let ip := cs.takeWhile Char.isDigit
  let rest := cs.dropWhile Char.isDigit
  match rest with
  | '.' :: rest2 =>
      let fp := rest2.takeWhile Char.isDigit
      let rest3 := rest2.dropWhile Char.isDigit
      if ip.isEmpty && fp.isEmpty then Option.none
      else Option.some (mkRat (Int.ofNat (digitsToNat (ip ++ fp))) (Nat.pow 10 fp.length), rest3)
  | _ =>
      if ip.isEmpty then Option.none
      else Option.some (mkRat (Int.ofNat (digitsToNat ip)) 1, rest)

/-- Parse the optional exponent part `e±digits` of a Python float
literal; with no leading `e`/`E` the exponent is `0` and nothing is
consumed, a bare `e` with no digits is a parse error. -/
def parseExponent (cs : List Char) : Option (ℤ × List Char) :=
  match cs with
  | 'e' :: rest | 'E' :: rest =>
      let (sgn, rest2) : ℤ × List Char :=
        match rest with
        | '+' :: t => (1, t)
        | '-' :: t => (-1, t)
        | t => (1, t)
      let ds := rest2.takeWhile Char.isDigit
      let rest3 := rest2.dropWhile Char.isDigit
      if ds.isEmpty then Option.none
      else Option.some (sgn * (digitsToNat ds : ℤ), rest3)
  | _ => Option.some (0, cs)

/-- Model of Python `float(s)`: surrounding whitespace is ignored, then
an optional sign, a mantissa and an optional exponent must consume the
whole string; any other input raises `ValueError`, modelled as `none`.
(The `inf`/`nan` spellings and digit underscores accepted by CPython are
not modelled; no claim involves them, and `nan`/`inf` have no value in
`ℚ`.) -/
def pyFloat (s : String) : Option ℚ :=
  let cs := (((s.toList.dropWhile Char.isWhitespace).reverse.dropWhile Char.isWhitespace).reverse)
  let (isNeg, cs1) : Bool × List Char :=
    match cs with
    | '+' :: t => (false, t)
    | '-' :: t => (true, t)
    | t => (false, t)
  match parseMantissa cs1 with
  | Option.none => Option.none
  | Option.some (m, r1) =>
    match parseExponent r1 with
    | Option.none => Option.none
    | Option.some (e, r2) =>
      if r2.isEmpty then
        let scaled : ℚ :=
          if 0 ≤ e then mkRat (m.num * Int.ofNat (Nat.pow 10 e.toNat)) m.den
          else mkRat m.num (m.den * Nat.pow 10 (-e).toNat)
        Option.some (if isNeg then mkRat (-scaled.num) scaled.den else scaled)
      else Option.none

/-- Python `s.strip()`: remove leading and trailing whitespace. -/
def pyStrip (s : String) : String :=
  String.mk (((s.toList.dropWhile Char.isWhitespace).reverse.dropWhile Char.isWhitespace).reverse)

mutual

/-- Python `str(x)`.  Faithful on the scalar shapes the script feeds to
`str` (`None`, booleans, ints, strings); for floats the `n.0` form is
produced for integral values and a fraction rendering otherwise, and
containers render their entries recursively with `str` (CPython uses
`repr` inside containers); no claim inspects those renderings. -/
def pyStr : PyVal → String
  | .none => "None"
  | .bool b => if b then "True" else "False"
  | .int n => toString n
  | .float q => if q.den = 1 then toString q.num ++ ".0" else toString q
  | .str s => s
  | .list xs => "[" ++ pyStrList xs ++ "]"
  | .dict kvs => "\x7b" ++ pyStrDict kvs ++ "\x7d"

/-- The comma-separated entries of a Python list rendering. -/
def pyStrList : PyValList → String
  | .nil => ""
  | .cons x .nil => pyStr x
  | .cons x tl => pyStr x ++ ", " ++ pyStrList tl

/-- The comma-separated `'key': value` entries of a dict rendering. -/
def pyStrDict : PyValDict → String
  | .nil => ""
  | .cons k v .nil => "\x27" ++ k ++ "\x27: " ++ pyStr v
  | .cons k v tl => "\x27" ++ k ++ "\x27: " ++ pyStr v ++ ", " ++ pyStrDict tl

end

/-- Python `s.replace(old, new)` for a single-character `old` (the only
form the script uses: `$`, `,`, newline and carriage return). -/
def replaceChar (s : String) (c : Char) (t : String) : String :=
  String.mk ((s.toList.map (fun a => if a = c then t.toList else [a])).flatten)

/-- `safe_float` from the script: `None` passes through as `None`,
native numbers coerce directly (Python `bool` is a subclass of `int`, so
booleans take the `isinstance(x, (int, float))` branch and coerce to
`1.0`/`0.0`), any other value is turned into a string, stripped, checked
for emptiness, has `$` and `,` removed and is parsed with `float(s)`;
the caught `ValueError` is the `none` branch of `pyFloat`. -/
def safe_float (x : PyVal) : Option ℚ :=
  match x with
  | .none => Option.none
  | .bool b => Option.some (if b then mkRat 1 1 else mkRat 0 1)
  | .int n => Option.some (mkRat n 1)
  | .float q => Option.some q
  | x =>
    let s := pyStrip (pyStr x)
    if s = "" then Option.none
    else pyFloat (replaceChar (replaceChar s '$' "") ',' "")

/-- `OFFER_AMOUNT_THRESHOLD = 200_000_000` from the script's CONFIG block. -/
def OFFER_AMOUNT_THRESHOLD : ℚ := mkRat 200000000 1

/-- `RUN_HOUR_DUBAI = 9` from the script's CONFIG block. -/
def RUN_HOUR_DUBAI : ℕ := 9

/-- `RUN_MINUTE_DUBAI = 0` from the script's CONFIG block. -/
def RUN_MINUTE_DUBAI : ℕ := 0

/-- `short_text` from the script: replace newlines and carriage returns
with spaces, keep the first `n` characters and append `"..."` when the
text was longer than `n`. -/
def short_text (s : String) (n : ℕ) : String :=
  let t := replaceChar (replaceChar s '\n' " ") '\r' " "
  t.take n ++ (if n < t.length then "..." else "")

/-- The process environment as the script observes it: `os.environ.get`
and `os.path.exists`. -/
structure Env where
  getenv : String → Option String
  path_exists : String → Bool

/-- The value the script passes as `verify=` to `requests`: `False`
(verification disabled), a filesystem path, or `certifi.where()` (the
bundled trusted-root store). -/
inductive VerifyValue where
  | disabled
  | path (p : String)
  | certifiStore
  deriving DecidableEq

/-- `ALLOW_INSECURE_SSL` from the CONFIG block:
`os.environ.get("ALLOW_INSECURE_SSL", "0") == "1"`. -/
def ALLOW_INSECURE_SSL (env : Env) : Bool :=
  (env.getenv "ALLOW_INSECURE_SSL").getD "0" = "1"

/-- The tail of the `requests_verify_value` chain: the `SSL_CERT_FILE`
check followed by the `certifi.where()` default. -/
def sslCertFileChain (env : Env) : VerifyValue :=
  match env.getenv "SSL_CERT_FILE" with
  | Option.some ssl_cert_file =>
    if ssl_cert_file ≠ "" ∧ env.path_exists ssl_cert_file then VerifyValue.path ssl_cert_file
    else VerifyValue.certifiStore
  | Option.none => VerifyValue.certifiStore

/-- `requests_verify_value` from the script.  A set environment variable
is a `some` value, which Python then tests for truthiness (non-empty)
and for `os.path.exists` before using it. -/
def requests_verify_value (env : Env) : VerifyValue :=
  if ALLOW_INSECURE_SSL env then VerifyValue.disabled
  else
    match env.getenv "REQUESTS_CA_BUNDLE" with
    | Option.some ca_bundle =>
      if ca_bundle ≠ "" ∧ env.path_exists ca_bundle then VerifyValue.path ca_bundle
      else sslCertFileChain env
    | Option.none => sslCertFileChain env

/-- `FetchResult` from the script. -/
structure FetchResult where
  source : String
  items : List Record
  error_summary : Option String

/-- The outcomes of the HTTP GET in `fetch_ipos_finnhub`, as enumerated
by the spec: an SSL exception, any other transport exception (each with
an exception class name and message), or a response carrying a status
code, a body text and, when the body parses as JSON, its parse. -/
inductive HttpOutcome where
  | sslError (name msg : String)
  | transportError (name msg : String)
  | response (status : ℕ) (text : String) (json : Option PyVal)

/-- Python `type(x)` rendered as in an f-string, e.g. `<class 'int'>`. -/
def pyTypeName : PyVal → String
  | .none => "<class \x27NoneType\x27>"
  | .bool _ => "<class \x27bool\x27>"
  | .int _ => "<class \x27int\x27>"
  | .float _ => "<class \x27float\x27>"
  | .str _ => "<class \x27str\x27>"
  | .list _ => "<class \x27list\x27>"
  | .dict _ => "<class \x27dict\x27>"

/-- `list(data.keys())` rendered as in an f-string: `['a', 'b']`. -/
def pyKeysRepr (kvs : Record) : String :=
  "[" ++ String.intercalate ", " (kvs.keys.map (fun k => "\x27" ++ k ++ "\x27")) ++ "]"

/-- `isinstance(x, dict)` as a partial projection to the dict payload. -/
def asDict : PyVal → Option Record
  | .dict kvs => Option.some kvs
  | _ => Option.none

/-- The comprehension `[x for x in calendar if isinstance(x, dict)]`:
the entries of the calendar list that are dicts, in order. -/
def calendarDicts : PyValList → List Record
  | .nil => []
  | .cons (.dict kvs) tl => kvs :: calendarDicts tl
  | .cons _ tl => calendarDicts tl

/-- `fetch_ipos_finnhub` from the script, as a function of the HTTP
outcome.  Every Python `return FetchResult(...)` is one branch; the two
`except` clauses are the two exception constructors, so the function is
total: no outcome raises. -/
def fetch_ipos_finnhub (o : HttpOutcome) : FetchResult :=
  match o with
  | .sslError name msg =>
    ⟨"FINNHUB", [], Option.some ("FINNHUB SSL error: " ++ name ++ ": " ++ short_text msg 260)⟩
  | .transportError name msg =>
    ⟨"FINNHUB", [], Option.some ("FINNHUB error: " ++ name ++ ": " ++ short_text msg 260)⟩
  | .response status text json =>
    if 400 ≤ status then
      ⟨"FINNHUB", [],
        Option.some ("FINNHUB HTTP " ++ toString status ++ ". Body=" ++ short_text text 260)⟩
    else
      match json with
      | Option.none =>
        ⟨"FINNHUB", [], Option.some ("FINNHUB non-JSON response. Body=" ++ short_text text 260)⟩
      | Option.some data =>
        match data with
        | .dict kvs =>
          match pyGet kvs "ipoCalendar" with
          | .none =>
            ⟨"FINNHUB", [],
              Option.some ("FINNHUB missing \x27ipoCalendar\x27. Keys=" ++ pyKeysRepr kvs)⟩
          | .list calendar => ⟨"FINNHUB", calendarDicts calendar, Option.none⟩
          | other =>
            ⟨"FINNHUB", [],
              Option.some ("FINNHUB ipoCalendar not a list: " ++ pyTypeName other)⟩
        | other =>
          ⟨"FINNHUB", [], Option.some ("FINNHUB unexpected JSON type: " ++ pyTypeName other)⟩

/-- The success path of `fetch_ipos_finnhub`, stated from the claim's
words: status below 400, JSON body that is a mapping whose
`ipoCalendar` entry is a list — in that case the raw calendar list. -/
def acceptedCalendar (o : HttpOutcome) : Option PyValList :=
  match o with
  | .response status _ (Option.some (.dict kvs)) =>
    if 400 ≤ status then Option.none
    else
      match pyGet kvs "ipoCalendar" with
      | .list calendar => Option.some calendar
      | _ => Option.none
  | _ => Option.none

/-- The `or`-chain `item.get("totalSharesValue") or item.get("proceeds")
or item.get("totalValue")` from `compute_offer_amount`. -/
def totalField (it : Record) : PyVal :=
  pyOr (pyGet it "totalSharesValue") (pyOr (pyGet it "proceeds") (pyGet it "totalValue"))

/-- The `or`-chain `item.get("price") or item.get("offerPrice") or
item.get("finalPrice")` from `compute_offer_amount`. -/
def priceField (it : Record) : PyVal :=
  pyOr (pyGet it "price") (pyOr (pyGet it "offerPrice") (pyGet it "finalPrice"))

/-- The `or`-chain `item.get("numberOfShares") or item.get("shares") or
item.get("sharesOffered")` from `compute_offer_amount`. -/
def sharesField (it : Record) : PyVal :=
  pyOr (pyGet it "numberOfShares") (pyOr (pyGet it "shares") (pyGet it "sharesOffered"))

/-- `compute_offer_amount` from the script. -/
def compute_offer_amount (it : Record) : Option ℚ × String :=
  match safe_float (totalField it) with
  | Option.some total => (Option.some total, "provided_total")
  | Option.none =>
    match safe_float (priceField it), safe_float (sharesField it) with
    | Option.some price, Option.some shares => (Option.some (qmul price shares), "price_x_shares")
    | _, _ => (Option.none, "missing_price_or_shares")

/-- Round-half-to-even, the rounding CPython's `format` applies for the
`,.0f` and `.2f` conversions in the script's f-strings. -/
def roundHalfEven (q : ℚ) : ℤ :=
  let f := q.num.fdiv q.den
  let r2 := 2 * (q.num - f * q.den)
  if r2 < q.den then f
  else if (q.den : ℤ) < r2 then f + 1
  else if f % 2 = 0 then f else f + 1

/-- Insert a `,` after every group of three characters of a reversed
digit string; helper for the `,` flag of Python's `format`. -/
def groupRev : List Char → List Char
  | a :: b :: c :: d :: rest => a :: b :: c :: ',' :: groupRev (d :: rest)
  | l => l

/-- A natural number in decimal with thousands separators. -/
def commaGroup (n : ℕ) : String :=
  String.mk ((groupRev (toString n).toList.reverse).reverse)

/-- Python `f"{q:,.0f}"`: round to an integer, render with thousands
separators. -/
def fmtComma0 (q : ℚ) : String :=
  let n := roundHalfEven q
  (if n < 0 then "-" else "") ++ commaGroup n.natAbs

/-- Python `f"{q:.2f}"`: round to two decimal places. -/
def fmt2 (q : ℚ) : String :=
  let n := roundHalfEven (qmul q (mkRat 100 1))
  let a := n.natAbs
  (if n < 0 then "-" else "") ++ toString (a / 100) ++ "." ++
    (if a % 100 < 10 then "0" else "") ++ toString (a % 100)

/-- Uppercase an ASCII letter. -/
def asciiUpper (c : Char) : Char :=
  if 'a' ≤ c ∧ c ≤ 'z' then Char.ofNat (c.toNat - 32) else c

/-- Python `s.upper()` (on the ASCII range; the tickers the script
uppercases are ASCII). -/
def pyUpper (s : String) : String :=
  String.mk (s.toList.map asciiUpper)

/-- The display-ready match dict built inside `filter_today_large_ipos`,
with its five fixed keys as fields.  `Company` is stored by the script
as the raw value and stringified when interpolated into the HTML row;
the model stringifies at construction, which the row rendering then
uses as is. -/
structure Match where
  ticker : String
  company : String
  offerAmountUSD : String
  price : String
  calcMethod : String
  deriving DecidableEq

/-- The `or`-chain `it.get("symbol") or it.get("ticker") or "N/A"`. -/
def tickerField (it : Record) : PyVal :=
  pyOr (pyGet it "symbol") (pyOr (pyGet it "ticker") (.str "N/A"))

/-- The `or`-chain `it.get("name") or it.get("companyName") or
it.get("company") or "N/A"`. -/
def companyField (it : Record) : PyVal :=
  pyOr (pyGet it "name") (pyOr (pyGet it "companyName") (pyOr (pyGet it "company") (.str "N/A")))

/-- The `or`-chain `it.get("date") or it.get("ipoDate") or ""` whose
string form's first ten characters `filter_today_large_ipos` compares
with the target date. -/
def dateField (it : Record) : PyVal :=
  pyOr (pyGet it "date") (pyOr (pyGet it "ipoDate") (.str ""))

/-- The match dict appended by `filter_today_large_ipos` for a record
that passed both conditions, given its computed amount and method. -/
def mkMatch (it : Record) (offer_amount : ℚ) (method : String) : Match :=
  let price := safe_float (priceField it)
  { ticker := pyUpper (pyStr (tickerField it))
    company := pyStr (companyField it)
    offerAmountUSD := "$" ++ fmtComma0 offer_amount
    price := match price with
             | Option.some p => "$" ++ fmt2 p
             | Option.none => "N/A"
    calcMethod := method }

/-- The body of the `for it in items` loop of `filter_today_large_ipos`:
`none` models `continue`, `some m` models `matches.append(m)`. -/
def matchOne (today_ny : String) (it : Record) : Option Match :=
  let ipo_date := (pyStr (dateField it)).take 10
  if ipo_date ≠ today_ny then Option.none
  else
    match compute_offer_amount it with
    | (Option.none, _) => Option.none
    | (Option.some offer_amount, method) =>
      if OFFER_AMOUNT_THRESHOLD < offer_amount then Option.some (mkMatch it offer_amount method)
      else Option.none

/-- `filter_today_large_ipos` from the script: the loop appends the
result of its body for each record in order, i.e. a `filterMap`. -/
def filter_today_large_ipos (items : List Record) (today_ny : String) : List Match :=
  items.filterMap (matchOne today_ny)

/-- Concatenation of a list of strings: Python's `"".join(...)` and the
`rows += ...` accumulation loop of `render_email`. -/
def strConcat : List String → String
  | [] => ""
  | s :: l => s ++ strConcat l

/-- The `<tr>...</tr>` fragment `render_email` appends to `rows` for one
match. -/
def renderRow (m : Match) : String :=
  "<tr>" ++
  "<td><b>" ++ m.ticker ++ "</b></td>" ++
  "<td>" ++ m.company ++ "</td>" ++
  "<td>" ++ m.offerAmountUSD ++ "</td>" ++
  "<td>" ++ m.price ++ "</td>" ++
  "<td>" ++ m.calcMethod ++ "</td>" ++
  "</tr>"

/-- The `error_block` string of `render_email`: empty when `errors` is
empty, otherwise a heading followed by one `<li>` item per error. -/
def error_block (errors : List String) : String :=
  if errors.isEmpty then ""
  else
    "<h3>Errors (brief)</h3><ul>" ++
      strConcat (errors.map (fun e => "<li><code>" ++ e ++ "</code></li>")) ++ "</ul>"

/-- `render_email` from the script, with the wall-clock `run_ts` (read
from `now_dubai()` in Python) passed as an argument.  The two
triple-quoted HTML bodies are transcribed with their newlines and
indentation. -/
def render_email (today_ny : String) (matchList : List Match) (errors : List String)
    (total_items : ℕ) (run_ts : String) : String × String :=
  if ¬ matchList.isEmpty then
    let subject := "US IPOs Today > $200M — " ++ today_ny
    let rows := strConcat (matchList.map renderRow)
    let body :=
      "\n        <html><body>\n        <h2>US IPOs Today (Offer Amount &gt; $200M)</h2>\n" ++
      "        <p><b>US market date (NY):</b> " ++ today_ny ++ "<br/>\n" ++
      "           <b>Run time (Dubai):</b> " ++ run_ts ++ "<br/>\n" ++
      "           <b>IPO records returned by API:</b> " ++ toString total_items ++ "</p>\n\n" ++
      "        <table border=\"1\" style=\"border-collapse:collapse; width:100%;\">\n" ++
      "        <tr style=\"background:#4CAF50;color:white;\">\n" ++
      "            <th>Ticker</th><th>Company</th><th>Offer Amount</th><th>Price</th><th>Calc</th>\n" ++
      "        </tr>\n        " ++ rows ++ "\n        </table>\n        " ++
      error_block errors ++ "\n        </body></html>\n        "
    (subject, body)
  else
    let subject := "No US IPOs Today > $200M — " ++ today_ny
    let body :=
      "\n    <html><body>\n    <h2>No US IPOs Today Above Threshold</h2>\n" ++
      "    <p><b>US market date (NY):</b> " ++ today_ny ++ "<br/>\n" ++
      "       <b>Run time (Dubai):</b> " ++ run_ts ++ "<br/>\n" ++
      "       <b>IPO records returned by API:</b> " ++ toString total_items ++ "</p>\n" ++
      "    <p>No IPOs found with offer amount &gt; $200M.</p>\n    " ++
      error_block errors ++ "\n    </body></html>\n    "
    (subject, body)

/-- What one invocation of `ipo_monitor_job` computes before handing the
subject and body to `send_email`. -/
structure JobReport where
  subject : String
  body : String
  total_items : ℕ
  matchList : List Match
  errors : List String

/-- The pure core of `ipo_monitor_job`: fetch, collect the error
summary (appended only when truthy, i.e. a non-empty string), filter
when `res.items` is truthy (non-empty), render.  The ambient date and
timestamp reads are passed as arguments. -/
def ipo_monitor_core (o : HttpOutcome) (today_ny : String) (run_ts : String) : JobReport :=
  let res := fetch_ipos_finnhub o
  let errors : List String :=
    match res.error_summary with
    | Option.some e => if e = "" then [] else [e]
    | Option.none => []
  let matchList := if ¬ res.items.isEmpty then filter_today_large_ipos res.items today_ny else []
  let sb := render_email today_ny matchList errors res.items.length run_ts
  { subject := sb.1, body := sb.2, total_items := res.items.length
    matchList := matchList, errors := errors }

/-- One reading of `now_dubai()` as the scheduler loop uses it: the
hour, the minute and the calendar date (`now.date()`, as a day
ordinal). -/
structure ClockReading where
  hour : ℕ
  minute : ℕ
  date : ℤ

/-- The scheduler loop of `run_daily_9am_dubai_forever`, run over a
finite sequence of clock readings (one per wake-up; the `time.sleep`
calls only shape which readings occur): the dates on which the loop
invokes `ipo_monitor_job()`, in order.  The job fires when the reading
is at the trigger hour and minute and `last_run_date` differs from the
reading's date, and then `last_run_date` is set to that date. -/
def schedFires (last_run_date : Option ℤ) : List ClockReading → List ℤ
  | [] => []
  | now :: rest =>
    if now.hour = RUN_HOUR_DUBAI ∧ now.minute = RUN_MINUTE_DUBAI ∧
        last_run_date ≠ Option.some now.date then
      now.date :: schedFires (Option.some now.date) rest
    else
      schedFires last_run_date rest

/-- `s` contains `piece` as a contiguous segment. -/
def ContainsPiece (s piece : String) : Prop :=
  ∃ p q : String, s = p ++ piece ++ q

/-- An environment value usable as a `verify=` path: set, non-empty and
existing on disk.  Spec-side helper for stating the TLS precedence. -/
def usablePath (env : Env) (v : Option String) : Option String :=
  match v with
  | Option.some p => if p ≠ "" ∧ env.path_exists p then Option.some p else Option.none
  | Option.none => Option.none

lemma containsPiece_appendL (s t piece : String) (h : ContainsPiece s piece) :
    ContainsPiece (s ++ t) piece := by
  obtain ⟨p, q, rfl⟩ := h
  exact ⟨p, q ++ t, by rw [String.append_assoc]⟩

lemma containsPiece_appendR (t s piece : String) (h : ContainsPiece s piece) :
    ContainsPiece (t ++ s) piece := by
  obtain ⟨p, q, rfl⟩ := h
  exact ⟨t ++ p, q, by rw [String.append_assoc, String.append_assoc, String.append_assoc]⟩

lemma containsPiece_self (piece : String) : ContainsPiece piece piece :=
  ⟨"", "", by rw [String.empty_append, String.append_empty]⟩

lemma containsPiece_strConcat_map (f : String → String) (l : List String) (e : String)
    (he : e ∈ l) : ContainsPiece (strConcat (l.map f)) (f e) := by
  induction l with
  | nil => cases he
  | cons x xs ih =>
    rcases List.mem_cons.mp he with rfl | hm
    · have h1 := containsPiece_appendL (f e) (strConcat (xs.map f)) (f e) (containsPiece_self _)
      simpa [strConcat] using h1
    · have h1 := containsPiece_appendR (f x) (strConcat (xs.map f)) (f e) (ih hm)
      simpa [strConcat] using h1

lemma fetch_eq_of_accepted (o : HttpOutcome) (calendar : PyValList)
    (h : acceptedCalendar o = Option.some calendar) :
    fetch_ipos_finnhub o = ⟨"FINNHUB", calendarDicts calendar, Option.none⟩ := by
  cases o with
  | sslError n m => simp [acceptedCalendar] at h
  | transportError n m => simp [acceptedCalendar] at h
  | response st text json =>
    rcases json with _ | data
    · simp [acceptedCalendar] at h
    · cases data with
      | dict kvs =>
        rw [acceptedCalendar] at h
        by_cases hst : 400 ≤ st
        · rw [if_pos hst] at h; cases h
        · rw [if_neg hst] at h
          rcases hg : pyGet kvs "ipoCalendar" with _ | b | nn | qq | ss | xs | kk <;>
            rw [hg] at h <;> try cases h
          simp [fetch_ipos_finnhub, hst, hg]
      | none => simp [acceptedCalendar] at h
      | bool b => simp [acceptedCalendar] at h
      | int n => simp [acceptedCalendar] at h
      | float q => simp [acceptedCalendar] at h
      | str s => simp [acceptedCalendar] at h
      | list xs => simp [acceptedCalendar] at h

lemma fetch_not_accepted (o : HttpOutcome) (h : acceptedCalendar o = Option.none) :
    (fetch_ipos_finnhub o).items = [] ∧ (fetch_ipos_finnhub o).error_summary.isSome = true := by
  cases o with
  | sslError n m => exact ⟨rfl, rfl⟩
  | transportError n m => exact ⟨rfl, rfl⟩
  | response st text json =>
    by_cases hst : 400 ≤ st
    · constructor <;> simp [fetch_ipos_finnhub, hst]
    · rcases json with _ | data
      · constructor <;> simp [fetch_ipos_finnhub, hst]
      · cases data with
        | dict kvs =>
          rw [acceptedCalendar, if_neg hst] at h
          rcases hg : pyGet kvs "ipoCalendar" with _ | b | nn | qq | ss | xs | kk <;>
            rw [hg] at h
          · constructor <;> simp [fetch_ipos_finnhub, hst, hg]
          · constructor <;> simp [fetch_ipos_finnhub, hst, hg]
          · constructor <;> simp [fetch_ipos_finnhub, hst, hg]
          · constructor <;> simp [fetch_ipos_finnhub, hst, hg]
          · constructor <;> simp [fetch_ipos_finnhub, hst, hg]
          · simp at h
          · constructor <;> simp [fetch_ipos_finnhub, hst, hg]
        | none => constructor <;> simp [fetch_ipos_finnhub, hst]
        | bool b => constructor <;> simp [fetch_ipos_finnhub, hst]
        | int n => constructor <;> simp [fetch_ipos_finnhub, hst]
        | float q => constructor <;> simp [fetch_ipos_finnhub, hst]
        | str s => constructor <;> simp [fetch_ipos_finnhub, hst]
        | list xs => constructor <;> simp [fetch_ipos_finnhub, hst]

lemma fetch_source (o : HttpOutcome) : (fetch_ipos_finnhub o).source = "FINNHUB" := by
  cases o with
  | sslError n m => rfl
  | transportError n m => rfl
  | response st text json =>
    by_cases hst : 400 ≤ st
    · simp [fetch_ipos_finnhub, hst]
    · rcases json with _ | data
      · simp [fetch_ipos_finnhub, hst]
      · cases data with
        | dict kvs =>
          rcases hg : pyGet kvs "ipoCalendar" with _ | b | nn | qq | ss | xs | kk <;>
            simp [fetch_ipos_finnhub, hst, hg]
        | none => simp [fetch_ipos_finnhub, hst]
        | bool b => simp [fetch_ipos_finnhub, hst]
        | int n => simp [fetch_ipos_finnhub, hst]
        | float q => simp [fetch_ipos_finnhub, hst]
        | str s => simp [fetch_ipos_finnhub, hst]
        | list xs => simp [fetch_ipos_finnhub, hst]

lemma schedFires_strict (cs : List ClockReading) :
    ∀ last : Option ℤ, (cs.map ClockReading.date).Chain' (· ≤ ·) →
    (∀ m : ℤ, last = Option.some m → ∀ c ∈ cs, m ≤ c.date) →
    (schedFires last cs).Chain' (· < ·) ∧
    (∀ m : ℤ, last = Option.some m → ∀ f ∈ schedFires last cs, m < f) := by
  induction cs with
  | nil => intro last _ _; exact ⟨List.chain'_nil, fun m _ f hf => absurd hf (List.not_mem_nil f)⟩
  | cons now rest ih =>
    intro last hmono hlast
    have hmono' : (rest.map ClockReading.date).Chain' (· ≤ ·) := by
      have := hmono.tail
      simpa using this
    have hrest : ∀ c ∈ rest, now.date ≤ c.date := by
      intro c hc
      have hp := List.chain'_iff_pairwise.mp hmono
      rw [List.map_cons, List.pairwise_cons] at hp
      exact hp.1 c.date (List.mem_map_of_mem ClockReading.date hc)
    by_cases hcond : now.hour = RUN_HOUR_DUBAI ∧ now.minute = RUN_MINUTE_DUBAI ∧
        last ≠ Option.some now.date
    · have hfires : schedFires last (now :: rest) =
          now.date :: schedFires (Option.some now.date) rest := by
        rw [schedFires, if_pos hcond]
      obtain ⟨hch, hgt⟩ := ih (Option.some now.date) hmono'
        (fun m hm c hc => by cases hm; exact hrest c hc)
      constructor
      · rw [hfires]
        rw [List.chain'_cons']
        refine ⟨fun y hy => ?_, hch⟩
        exact hgt now.date rfl y (List.mem_of_mem_head? hy)
      · intro m hm f hf
        rw [hfires] at hf
        have hle : m ≤ now.date := hlast m hm now (List.mem_cons_self now rest)
        rcases List.mem_cons.mp hf with rfl | hf'
        · refine lt_of_le_of_ne hle (fun he => ?_)
          exact hcond.2.2 (by rw [hm, he])
        · exact lt_of_le_of_lt hle (hgt now.date rfl f hf')
    · have hfires : schedFires last (now :: rest) = schedFires last rest := by
        rw [schedFires, if_neg hcond]
      obtain ⟨hch, hgt⟩ := ih last hmono' (fun m hm c hc => hlast m hm c (List.mem_cons_of_mem now hc))
      rw [hfires]
      exact ⟨hch, fun m hm f hf => hgt m hm f hf⟩

lemma calendarDicts_eq_filterMap : ∀ l : PyValList,
    calendarDicts l = l.toList.filterMap asDict
  | .nil => rfl
  | .cons x tl => by
    cases x <;> simp [calendarDicts, PyValList.toList, asDict, calendarDicts_eq_filterMap tl]

lemma sslCertFileChain_eq (env : Env) :
    sslCertFileChain env = (match usablePath env (env.getenv "SSL_CERT_FILE") with
      | Option.some p => VerifyValue.path p
      | Option.none => VerifyValue.certifiStore) := by
  rcases henv : env.getenv "SSL_CERT_FILE" with _ | p
  · simp [sslCertFileChain, usablePath, henv]
  · by_cases hc : p ≠ "" ∧ env.path_exists p <;>
      simp [sslCertFileChain, usablePath, henv, hc]

lemma requests_verify_value_eq (env : Env) (h : ALLOW_INSECURE_SSL env = false) :
    requests_verify_value env = (match usablePath env (env.getenv "REQUESTS_CA_BUNDLE") with
      | Option.some p => VerifyValue.path p
      | Option.none => sslCertFileChain env) := by
  rcases henv : env.getenv "REQUESTS_CA_BUNDLE" with _ | p
  · simp [requests_verify_value, usablePath, h, henv]
  · by_cases hc : p ≠ "" ∧ env.path_exists p <;>
      simp [requests_verify_value, usablePath, h, henv, hc]

/-- C1: a record whose computed offer amount is exactly the 200,000,000
threshold is excluded by `filter_today_large_ipos`, and a match appears
in the output only for a record whose computed amount is strictly
greater than the threshold. -/
theorem C1_strict_threshold (items : List Record) (today_ny : String) :
    (∀ it : Record, (compute_offer_amount it).1 = Option.some OFFER_AMOUNT_THRESHOLD →
      matchOne today_ny it = Option.none) ∧
    (∀ m ∈ filter_today_large_ipos items today_ny,
      ∃ it ∈ items, ∃ a : ℚ, (compute_offer_amount it).1 = Option.some a ∧
        OFFER_AMOUNT_THRESHOLD < a ∧ matchOne today_ny it = Option.some m) := by
  constructor
  · intro it h
    rcases hc : compute_offer_amount it with ⟨oa, method⟩
    rw [hc] at h
    simp at h
    subst h
    by_cases hd : (pyStr (dateField it)).take 10 = today_ny
    · simp [matchOne, hd, hc]
    · simp [matchOne, hd]
  · intro m hm
    rw [filter_today_large_ipos, List.mem_filterMap] at hm
    obtain ⟨it, hit, hmatch⟩ := hm
    refine ⟨it, hit, ?_⟩
    rcases hc : compute_offer_amount it with ⟨oa, method⟩
    by_cases hd : (pyStr (dateField it)).take 10 = today_ny
    · rcases oa with _ | a
      · simp [matchOne, hd, hc] at hmatch
      · by_cases ha : OFFER_AMOUNT_THRESHOLD < a
        · exact ⟨a, by simp [hc], ha, hmatch⟩
        · simp [matchOne, hd, hc, ha] at hmatch
    · simp [matchOne, hd] at hmatch

/-- Witness for C1 at concrete inputs: a record computing to exactly
200,000,000 is dropped, and a 250,000,000 record dated on the target
day is the source of its match. -/
theorem C1_strict_threshold_witness :
    matchOne "2025-10-12" (recOf [("totalSharesValue", PyVal.int 200000000)]) = Option.none ∧
    (∃ it ∈ [recOf [("date", PyVal.str "2025-10-12"), ("totalSharesValue", PyVal.int 250000000)]],
      ∃ a : ℚ, (compute_offer_amount it).1 = Option.some a ∧
        OFFER_AMOUNT_THRESHOLD < a ∧ matchOne "2025-10-12" it =
          Option.some (mkMatch (recOf [("date", PyVal.str "2025-10-12"),
            ("totalSharesValue", PyVal.int 250000000)]) (mkRat 250000000 1) "provided_total")) :=
  ⟨(C1_strict_threshold [] "2025-10-12").1 _ (by decide),
   (C1_strict_threshold
      [recOf [("date", PyVal.str "2025-10-12"), ("totalSharesValue", PyVal.int 250000000)]]
      "2025-10-12").2 _ (by decide)⟩

/-- C2: with a 10-character target date, a record is included only when
the first ten characters of its date-chain string equal the target; a
record whose date prefix differs is excluded whatever its amount, and a
record lacking both date fields is excluded. -/
theorem C2_date_filter (items : List Record) (today_ny : String) (hlen : today_ny.length = 10) :
    (∀ (it : Record) (m : Match), matchOne today_ny it = Option.some m →
      (pyStr (dateField it)).take 10 = today_ny) ∧
    (∀ it : Record, (pyStr (dateField it)).take 10 ≠ today_ny →
      matchOne today_ny it = Option.none) ∧
    (∀ it : Record, pyGet it "date" = PyVal.none → pyGet it "ipoDate" = PyVal.none →
      matchOne today_ny it = Option.none) ∧
    (∀ m ∈ filter_today_large_ipos items today_ny,
      ∃ it ∈ items, (pyStr (dateField it)).take 10 = today_ny) := by
  have h2 : ∀ it : Record, (pyStr (dateField it)).take 10 ≠ today_ny →
      matchOne today_ny it = Option.none := by
    intro it hd
    simp [matchOne, hd]
  refine ⟨?_, h2, ?_, ?_⟩
  · intro it m hmatch
    by_cases hd : (pyStr (dateField it)).take 10 = today_ny
    · exact hd
    · rw [h2 it hd] at hmatch
      cases hmatch
  · intro it hdate hipo
    apply h2
    have hchain : dateField it = PyVal.str "" := by
      rw [dateField, hdate, hipo]
      rfl
    rw [hchain]
    intro hcontra
    have : ("" : String).length = today_ny.length := by
      rw [← hcontra]
      rfl
    rw [hlen] at this
    cases this
  · intro m hm
    rw [filter_today_large_ipos, List.mem_filterMap] at hm
    obtain ⟨it, hit, hmatch⟩ := hm
    by_cases hd : (pyStr (dateField it)).take 10 = today_ny
    · exact ⟨it, hit, hd⟩
    · rw [h2 it hd] at hmatch
      cases hmatch

/-- Witness for C2 at concrete inputs: with target `2025-10-12`, an
empty record and a yesterday-dated 500,000,000 record are both
excluded, and a matching record shows the date-prefix equality. -/
theorem C2_date_filter_witness :
    matchOne "2025-10-12" (recOf []) = Option.none ∧
    matchOne "2025-10-12" (recOf [("date", PyVal.str "2025-10-11"),
      ("totalSharesValue", PyVal.int 500000000)]) = Option.none ∧
    (∃ it ∈ [recOf [("date", PyVal.str "2025-10-12T00:00:00"),
        ("proceeds", PyVal.int 300000000)]],
      (pyStr (dateField it)).take 10 = "2025-10-12") :=
  ⟨(C2_date_filter [] "2025-10-12" (by decide)).2.2.1 _ rfl rfl,
   (C2_date_filter [] "2025-10-12" (by decide)).2.1 _ (by decide),
   (C2_date_filter
      [recOf [("date", PyVal.str "2025-10-12T00:00:00"), ("proceeds", PyVal.int 300000000)]]
      "2025-10-12" (by decide)).2.2.2
      (mkMatch (recOf [("date", PyVal.str "2025-10-12T00:00:00"),
        ("proceeds", PyVal.int 300000000)]) (mkRat 300000000 1) "provided_total")
      (by decide)⟩

/-- C3 counterexample: a record carrying a direct total field (value
`0`), a price field and a share-count field; the Python `or`-chain
treats the falsy `0` as absent, so the code returns the
price-times-shares product with tag `price_x_shares`, not the coerced
direct total `0` with tag `provided_total` as the claim states. -/
theorem C3_counterexample :
    pyGet (recOf [("totalSharesValue", PyVal.int 0), ("price", PyVal.int 10),
      ("numberOfShares", PyVal.int 2)]) "totalSharesValue" = PyVal.int 0 ∧
    pyGet (recOf [("totalSharesValue", PyVal.int 0), ("price", PyVal.int 10),
      ("numberOfShares", PyVal.int 2)]) "price" = PyVal.int 10 ∧
    pyGet (recOf [("totalSharesValue", PyVal.int 0), ("price", PyVal.int 10),
      ("numberOfShares", PyVal.int 2)]) "numberOfShares" = PyVal.int 2 ∧
    safe_float (PyVal.int 0) = Option.some (mkRat 0 1) ∧
    compute_offer_amount (recOf [("totalSharesValue", PyVal.int 0), ("price", PyVal.int 10),
      ("numberOfShares", PyVal.int 2)]) = (Option.some (mkRat 20 1), "price_x_shares") ∧
    (Option.some (mkRat 20 1), "price_x_shares") ≠
      ((Option.some (mkRat 0 1), "provided_total") : Option ℚ × String) :=
  ⟨rfl, rfl, rfl, rfl, by decide, by decide⟩

/-- C3 (amended): whenever the truthiness `or`-chain over
`totalSharesValue`, `proceeds`, `totalValue` coerces to a number via
`safe_float`, `compute_offer_amount` returns exactly that number with
tag `provided_total` and never the price-times-shares product. -/
theorem C3_provided_total_priority (it : Record) (t : ℚ)
    (h : safe_float (totalField it) = Option.some t) :
    compute_offer_amount it = (Option.some t, "provided_total") := by
  simp [compute_offer_amount, h]

/-- Witness for C3 (amended) at a record carrying a truthy direct total
together with price and share fields. -/
theorem C3_provided_total_priority_witness :
    compute_offer_amount (recOf [("totalSharesValue", PyVal.int 250000000),
      ("price", PyVal.int 10), ("numberOfShares", PyVal.int 2)]) =
      (Option.some (mkRat 250000000 1), "provided_total") :=
  C3_provided_total_priority _ _ (by decide)

/-- C5: `safe_float` is total (the model returns an `Option`, the
caught `ValueError` being the `none` branch), passes `None` through,
coerces native ints and floats as-is, and on strings equals parsing the
whitespace-stripped string with `$` and `,` removed — `none` exactly on
empty or unparsable text, as the concrete cases illustrate. -/
theorem C5_safe_float_coercion :
    safe_float PyVal.none = Option.none ∧
    (∀ n : ℤ, safe_float (PyVal.int n) = Option.some (mkRat n 1)) ∧
    (∀ q : ℚ, safe_float (PyVal.float q) = Option.some q) ∧
    (∀ s : String, safe_float (PyVal.str s) =
      pyFloat (replaceChar (replaceChar (pyStrip s) '$' "") ',' "")) ∧
    safe_float (PyVal.str "$1,234.50") = Option.some (mkRat 2469 2) ∧
    safe_float (PyVal.str "250,000,000") = Option.some (mkRat 250000000 1) ∧
    safe_float (PyVal.str "") = Option.none ∧
    safe_float (PyVal.str " ") = Option.none ∧
    safe_float (PyVal.str "not-a-number") = Option.none := by
  refine ⟨rfl, fun n => rfl, fun q => rfl, ?_, by decide, by decide, by decide, by decide,
    by decide⟩
  intro s
  have hs : pyStr (PyVal.str s) = s := rfl
  by_cases ht : pyStrip s = ""
  · simp only [safe_float, hs, ht, if_pos]
    rfl
  · simp only [safe_float, hs]
    rw [if_neg ht]

/-- C10 counterexample: a record whose `totalSharesValue` holds the
boolean `False` with price `10` and share count `5`; `safe_float`
would coerce `False` to `0.0`, but the truthiness `or`-chain skips the
falsy boolean, so the computation falls back to price-times-shares
instead of contributing the boolean's numeric value. -/
theorem C10_counterexample :
    pyGet (recOf [("totalSharesValue", PyVal.bool false), ("price", PyVal.int 10),
      ("numberOfShares", PyVal.int 5)]) "totalSharesValue" = PyVal.bool false ∧
    safe_float (PyVal.bool false) = Option.some (mkRat 0 1) ∧
    compute_offer_amount (recOf [("totalSharesValue", PyVal.bool false),
      ("price", PyVal.int 10), ("numberOfShares", PyVal.int 5)]) =
      (Option.some (mkRat 50 1), "price_x_shares") ∧
    (Option.some (mkRat 50 1), "price_x_shares") ≠
      ((Option.some (mkRat 0 1), "provided_total") : Option ℚ × String) :=
  ⟨rfl, rfl, by decide, by decide⟩

/-- C10 (amended): `safe_float` coerces booleans as native numbers
(`True ↦ 1.0`, `False ↦ 0.0`); a `True` in the total field contributes
`1.0` as a provided total, but a `False` is falsy, so the `or`-chain
skips it and the field is treated as absent. -/
theorem C10_bool_coercion (it : Record) :
    safe_float (PyVal.bool true) = Option.some (mkRat 1 1) ∧
    safe_float (PyVal.bool false) = Option.some (mkRat 0 1) ∧
    (pyGet it "totalSharesValue" = PyVal.bool true →
      compute_offer_amount it = (Option.some (mkRat 1 1), "provided_total")) ∧
    (pyGet it "totalSharesValue" = PyVal.bool false →
      totalField it = pyOr (pyGet it "proceeds") (pyGet it "totalValue")) := by
  refine ⟨rfl, rfl, ?_, ?_⟩
  · intro h
    have htf : totalField it = PyVal.bool true := by
      rw [totalField, h]
      rfl
    simp [compute_offer_amount, htf, safe_float]
  · intro h
    rw [totalField, h]
    rfl

/-- Witness for C10 (amended) at records holding `True` and `False`
total fields. -/
theorem C10_bool_coercion_witness :
    compute_offer_amount (recOf [("totalSharesValue", PyVal.bool true)]) =
      (Option.some (mkRat 1 1), "provided_total") ∧
    totalField (recOf [("totalSharesValue", PyVal.bool false), ("proceeds", PyVal.int 7)]) =
      pyOr (pyGet (recOf [("totalSharesValue", PyVal.bool false), ("proceeds", PyVal.int 7)])
        "proceeds")
        (pyGet (recOf [("totalSharesValue", PyVal.bool false), ("proceeds", PyVal.int 7)])
          "totalValue") :=
  ⟨(C10_bool_coercion _).2.2.1 rfl, (C10_bool_coercion _).2.2.2 rfl⟩

/-- C4: for every HTTP outcome the fetcher returns a `FetchResult`
tagged `FINNHUB` (the model is total: every exception branch is a
constructor case); `error_summary` is null exactly on the accepted
(well-formed) outcome; a non-null `error_summary` comes with empty
items; and on the accepted outcome the items are the order-preserving
subsequence of the calendar entries that are dicts, with null
`error_summary`. -/
theorem C4_fetch_never_raises (o : HttpOutcome) :
    (fetch_ipos_finnhub o).source = "FINNHUB" ∧
    ((fetch_ipos_finnhub o).error_summary = Option.none ↔ (acceptedCalendar o).isSome) ∧
    ((fetch_ipos_finnhub o).error_summary ≠ Option.none → (fetch_ipos_finnhub o).items = []) ∧
    (∀ calendar : PyValList, acceptedCalendar o = Option.some calendar →
      (fetch_ipos_finnhub o).items = calendar.toList.filterMap asDict ∧
      (fetch_ipos_finnhub o).error_summary = Option.none) := by
  refine ⟨fetch_source o, ?_, ?_, ?_⟩
  · rcases hacc : acceptedCalendar o with _ | cal
    · obtain ⟨hitems, hsome⟩ := fetch_not_accepted o hacc
      constructor
      · intro he
        rw [he] at hsome
        cases hsome
      · intro hs
        simp at hs
    · rw [fetch_eq_of_accepted o cal hacc]
      simp
  · intro hne
    rcases hacc : acceptedCalendar o with _ | cal
    · exact (fetch_not_accepted o hacc).1
    · rw [fetch_eq_of_accepted o cal hacc] at hne
      simp at hne
  · intro cal hacc
    rw [fetch_eq_of_accepted o cal hacc]
    exact ⟨by simp [calendarDicts_eq_filterMap], rfl⟩

/-- Witness for C4: an HTTP 500 yields empty items, and an accepted
response keeps exactly the dict entries of the calendar, in order. -/
theorem C4_fetch_never_raises_witness :
    (fetch_ipos_finnhub (HttpOutcome.response 500 "oops" Option.none)).items = [] ∧
    ((fetch_ipos_finnhub (HttpOutcome.response 200 "" (Option.some (PyVal.dict (recOf
        [("ipoCalendar", PyVal.list (listOf [PyVal.dict (recOf [("symbol", PyVal.str "A")]),
          PyVal.int 7]))]))))).items =
      (listOf [PyVal.dict (recOf [("symbol", PyVal.str "A")]),
        PyVal.int 7]).toList.filterMap asDict ∧
      (fetch_ipos_finnhub (HttpOutcome.response 200 "" (Option.some (PyVal.dict (recOf
        [("ipoCalendar", PyVal.list (listOf [PyVal.dict (recOf [("symbol", PyVal.str "A")]),
          PyVal.int 7]))]))))).error_summary = Option.none) :=
  ⟨(C4_fetch_never_raises _).2.2.1 (by decide),
   (C4_fetch_never_raises _).2.2.2 _ rfl⟩

/-- C8 counterexample: an accepted response whose calendar holds one
dict and one non-dict entry; the raw API record count is 2, but the
orchestrator passes `len(res.items)` — the count after non-dict
entries were dropped — so the renderer receives 1, not the raw count
the claim states. -/
theorem C8_counterexample :
    acceptedCalendar (HttpOutcome.response 200 "" (Option.some (PyVal.dict (recOf
      [("ipoCalendar", PyVal.list (listOf [PyVal.dict (recOf []), PyVal.int 7]))])))) =
      Option.some (listOf [PyVal.dict (recOf []), PyVal.int 7]) ∧
    (listOf [PyVal.dict (recOf []), PyVal.int 7]).toList.length = 2 ∧
    (ipo_monitor_core (HttpOutcome.response 200 "" (Option.some (PyVal.dict (recOf
      [("ipoCalendar", PyVal.list (listOf [PyVal.dict (recOf []), PyVal.int 7]))]))))
      "2025-10-12" "2025-10-12 09:00:00 +04").total_items = 1 :=
  ⟨rfl, rfl, by decide⟩

/-- C8 (amended): on an accepted response, the count the orchestrator
passes to the renderer equals the number of calendar entries that are
dicts (the raw count minus dropped non-dict entries). -/
theorem C8_total_items_mapping_count (o : HttpOutcome) (calendar : PyValList)
    (today_ny run_ts : String) (h : acceptedCalendar o = Option.some calendar) :
    (ipo_monitor_core o today_ny run_ts).total_items = (calendarDicts calendar).length := by
  simp [ipo_monitor_core, fetch_eq_of_accepted o calendar h]

/-- Witness for C8 (amended) on a calendar with one dict and one
non-dict entry. -/
theorem C8_total_items_mapping_count_witness :
    (ipo_monitor_core (HttpOutcome.response 200 "" (Option.some (PyVal.dict (recOf
      [("ipoCalendar", PyVal.list (listOf [PyVal.dict (recOf []), PyVal.int 7]))]))))
      "2025-10-13" "ts").total_items =
      (calendarDicts (listOf [PyVal.dict (recOf []), PyVal.int 7])).length :=
  C8_total_items_mapping_count _ _ _ _ rfl

/-- C9 counterexample: with the insecure override unset, a CA bundle
path that is set in the environment but does not exist on disk is not
used — the code falls through to the bundled store, while the claim
says a set path is used. -/
theorem C9_counterexample :
    ALLOW_INSECURE_SSL
      { getenv := fun k =>
          if k = "REQUESTS_CA_BUNDLE" then Option.some "/custom/ca.pem" else Option.none,
        path_exists := fun _ => false } = false ∧
    Env.getenv
      { getenv := fun k =>
          if k = "REQUESTS_CA_BUNDLE" then Option.some "/custom/ca.pem" else Option.none,
        path_exists := fun _ => false } "REQUESTS_CA_BUNDLE" = Option.some "/custom/ca.pem" ∧
    requests_verify_value
      { getenv := fun k =>
          if k = "REQUESTS_CA_BUNDLE" then Option.some "/custom/ca.pem" else Option.none,
        path_exists := fun _ => false } = VerifyValue.certifiStore ∧
    VerifyValue.certifiStore ≠ VerifyValue.path "/custom/ca.pem" :=
  ⟨by decide, by decide, by decide, by decide⟩

/-- C9 (amended): the TLS verify value follows the precedence insecure
override → CA bundle (if set, non-empty and existing) → cert file (if
set, non-empty and existing) → bundled store. -/
theorem C9_verify_precedence (env : Env) :
    (ALLOW_INSECURE_SSL env = true → requests_verify_value env = VerifyValue.disabled) ∧
    (ALLOW_INSECURE_SSL env = false →
      (∀ p : String, usablePath env (env.getenv "REQUESTS_CA_BUNDLE") = Option.some p →
        requests_verify_value env = VerifyValue.path p) ∧
      (usablePath env (env.getenv "REQUESTS_CA_BUNDLE") = Option.none →
        (∀ p : String, usablePath env (env.getenv "SSL_CERT_FILE") = Option.some p →
          requests_verify_value env = VerifyValue.path p) ∧
        (usablePath env (env.getenv "SSL_CERT_FILE") = Option.none →
          requests_verify_value env = VerifyValue.certifiStore))) := by
  refine ⟨fun h => by simp [requests_verify_value, h],
    fun h => ⟨?_, fun hn => ⟨?_, fun hn2 => ?_⟩⟩⟩
  · intro p hp
    rw [requests_verify_value_eq env h, hp]
  · intro p hp
    rw [requests_verify_value_eq env h, hn, sslCertFileChain_eq env, hp]
  · rw [requests_verify_value_eq env h, hn, sslCertFileChain_eq env, hn2]

/-- Witness for C9 (amended): one environment per precedence level. -/
theorem C9_verify_precedence_witness :
    requests_verify_value
      { getenv := fun k =>
          if k = "ALLOW_INSECURE_SSL" then Option.some "1" else Option.none,
        path_exists := fun _ => true } = VerifyValue.disabled ∧
    requests_verify_value
      { getenv := fun k =>
          if k = "REQUESTS_CA_BUNDLE" then Option.some "/ca" else Option.none,
        path_exists := fun _ => true } = VerifyValue.path "/ca" ∧
    requests_verify_value
      { getenv := fun k =>
          if k = "SSL_CERT_FILE" then Option.some "/cert" else Option.none,
        path_exists := fun _ => true } = VerifyValue.path "/cert" ∧
    requests_verify_value { getenv := fun _ => Option.none, path_exists := fun _ => true } =
      VerifyValue.certifiStore :=
  ⟨(C9_verify_precedence _).1 (by decide),
   ((C9_verify_precedence _).2 (by decide)).1 "/ca" (by decide),
   (((C9_verify_precedence _).2 (by decide)).2 (by decide)).1 "/cert" (by decide),
   (((C9_verify_precedence _).2 (by decide)).2 (by decide)).2 (by decide)⟩

lemma subject_ne (t : String) :
    ("No US IPOs Today > $200M — " ++ t) ≠ ("US IPOs Today > $200M — " ++ t) := by
  intro h
  have hl := congrArg String.length h
  rw [String.length_append, String.length_append] at hl
  have hne : ("No US IPOs Today > $200M — ").length ≠ ("US IPOs Today > $200M — ").length := by
    decide
  omega

lemma error_block_empty_iff (errors : List String) : error_block errors = "" ↔ errors = [] := by
  constructor
  · intro h
    by_cases he : errors.isEmpty
    · exact List.isEmpty_iff.mp he
    · rw [error_block, if_neg he] at h
      have hl := congrArg String.length h
      rw [String.length_append, String.length_append] at hl
      simp at hl
      exact absurd hl.1.1 (by decide)
  · intro h
    subst h
    rfl

lemma error_block_mem (errors : List String) (e : String) (he : e ∈ errors) :
    ContainsPiece (error_block errors) ("<li><code>" ++ e ++ "</code></li>") := by
  have hne : ¬ errors.isEmpty := by
    rcases errors with _ | ⟨x, tl⟩
    · cases he
    · simp [List.isEmpty]
  rw [error_block, if_neg hne]
  apply containsPiece_appendL
  apply containsPiece_appendR
  exact containsPiece_strConcat_map (fun x => "<li><code>" ++ x ++ "</code></li>") errors e he

/-- C6: the subject is `US IPOs Today > $200M — {date}` exactly when the
match list is non-empty and `No US IPOs Today > $200M — {date}` exactly
when it is empty; in the non-empty case the body carries the
concatenation of one rendered table row per match; in both cases the
body carries the error block, which is non-empty exactly when the error
list is, and which lists every error string. -/
theorem C6_render_email (today_ny run_ts : String) (matchList : List Match)
    (errors : List String) (total_items : ℕ) :
    ((render_email today_ny matchList errors total_items run_ts).1 =
        "US IPOs Today > $200M — " ++ today_ny ↔ matchList ≠ []) ∧
    ((render_email today_ny matchList errors total_items run_ts).1 =
        "No US IPOs Today > $200M — " ++ today_ny ↔ matchList = []) ∧
    (matchList ≠ [] → ContainsPiece (render_email today_ny matchList errors total_items run_ts).2
        (strConcat (matchList.map renderRow))) ∧
    ContainsPiece (render_email today_ny matchList errors total_items run_ts).2
      (error_block errors) ∧
    (error_block errors = "" ↔ errors = []) ∧
    (∀ e ∈ errors, ContainsPiece (error_block errors)
      ("<li><code>" ++ e ++ "</code></li>")) := by
  by_cases hm : matchList.isEmpty
  · have hnil : matchList = [] := List.isEmpty_iff.mp hm
    subst hnil
    refine ⟨?_, ?_, ?_, ?_, error_block_empty_iff errors, error_block_mem errors⟩
    · simp only [render_email]
      rw [if_neg (by simp)]
      constructor
      · intro h
        exact absurd h (subject_ne today_ny)
      · intro h
        exact absurd rfl h
    · simp only [render_email]
      rw [if_neg (by simp)]
      simp
    · intro h
      exact absurd rfl h
    · simp only [render_email]
      rw [if_neg (by simp)]
      apply containsPiece_appendL
      apply containsPiece_appendR
      exact containsPiece_self _
  · have hnil : matchList ≠ [] := by
      rcases matchList with _ | ⟨x, tl⟩
      · simp at hm
      · simp
    refine ⟨?_, ?_, ?_, ?_, error_block_empty_iff errors, error_block_mem errors⟩
    · simp only [render_email]
      rw [if_pos hm]
      simp [hnil]
    · simp only [render_email]
      rw [if_pos hm]
      constructor
      · intro h
        exact absurd h.symm (subject_ne today_ny)
      · intro h
        exact absurd h hnil
    · intro _
      simp only [render_email]
      rw [if_pos hm]
      apply containsPiece_appendL
      apply containsPiece_appendL
      apply containsPiece_appendL
      apply containsPiece_appendR
      exact containsPiece_self _
    · simp only [render_email]
      rw [if_pos hm]
      apply containsPiece_appendL
      apply containsPiece_appendR
      exact containsPiece_self _

/-- Witness for C6: concrete renders with one match and one error, and
with no match and no error. -/
theorem C6_render_email_witness :
    ((render_email "2025-10-12" [⟨"ABC", "Acme", "$250,000,000", "N/A", "provided_total"⟩]
        ["E1"] 1 "ts").1 = "US IPOs Today > $200M — 2025-10-12") ∧
    ((render_email "2025-10-12" [] [] 0 "ts").1 = "No US IPOs Today > $200M — 2025-10-12") ∧
    ContainsPiece (render_email "2025-10-12"
      [⟨"ABC", "Acme", "$250,000,000", "N/A", "provided_total"⟩] ["E1"] 1 "ts").2
      (strConcat ([(⟨"ABC", "Acme", "$250,000,000", "N/A", "provided_total"⟩ :
        Match)].map renderRow)) ∧
    ContainsPiece (error_block ["E1"]) ("<li><code>" ++ "E1" ++ "</code></li>") :=
  ⟨(C6_render_email "2025-10-12" "ts"
      [⟨"ABC", "Acme", "$250,000,000", "N/A", "provided_total"⟩] ["E1"] 1).1.mpr (by simp),
   (C6_render_email "2025-10-12" "ts" [] [] 0).2.1.mpr rfl,
   (C6_render_email "2025-10-12" "ts"
      [⟨"ABC", "Acme", "$250,000,000", "N/A", "provided_total"⟩] ["E1"] 1).2.2.1 (by simp),
   (C6_render_email "2025-10-12" "ts"
      [⟨"ABC", "Acme", "$250,000,000", "N/A", "provided_total"⟩] ["E1"] 1).2.2.2.2.2 "E1"
      (by simp)⟩

/-- C7: over any monotone sequence of clock readings (dates never
decrease), the scheduler loop fires at most once per calendar day; in
particular two consecutive polls at the trigger minute on the same day
produce exactly one invocation. -/
theorem C7_scheduler_once_per_day (readings : List ClockReading)
    (hmono : (readings.map ClockReading.date).Chain' (· ≤ ·)) :
    (∀ d : ℤ, (schedFires Option.none readings).count d ≤ 1) ∧
    (∀ c₁ c₂ : ClockReading, readings = [c₁, c₂] → c₁.hour = RUN_HOUR_DUBAI →
      c₁.minute = RUN_MINUTE_DUBAI → c₂.hour = RUN_HOUR_DUBAI →
      c₂.minute = RUN_MINUTE_DUBAI → c₁.date = c₂.date →
      schedFires Option.none readings = [c₁.date]) := by
  constructor
  · intro d
    have hch := (schedFires_strict readings Option.none hmono
      (fun m hm => by cases hm)).1
    have hpw : (schedFires Option.none readings).Pairwise (· < ·) :=
      List.chain'_iff_pairwise.mp hch
    have hnd : (schedFires Option.none readings).Nodup :=
      hpw.imp (fun hlt => ne_of_lt hlt)
    exact List.nodup_iff_count_le_one.mp hnd d
  · intro c₁ c₂ hr h1 h2 h3 h4 hd
    subst hr
    rw [schedFires, if_pos ⟨h1, h2, by simp⟩]
    rw [schedFires, if_neg (fun hc => hc.2.2 (by rw [hd]))]
    rfl

/-- Witness for C7: two consecutive trigger-minute readings on day 0
fire exactly once. -/
theorem C7_scheduler_once_per_day_witness :
    (schedFires Option.none [⟨9, 0, 0⟩, ⟨9, 0, 0⟩]).count 0 ≤ 1 ∧
    schedFires Option.none [⟨9, 0, 0⟩, ⟨9, 0, 0⟩] = [(0 : ℤ)] :=
  ⟨(C7_scheduler_once_per_day [⟨9, 0, 0⟩, ⟨9, 0, 0⟩] (by simp)).1 0,
   (C7_scheduler_once_per_day [⟨9, 0, 0⟩, ⟨9, 0, 0⟩] (by simp)).2
     ⟨9, 0, 0⟩ ⟨9, 0, 0⟩ rfl rfl rfl rfl rfl rfl⟩

end IpoAlert
